import Mathlib

/-!
Verification development for the investment-dashboard repository.

The screening/scoring engine and the theme/forecast radar are embedded
shallowly: pandas DataFrames of adjusted closes become rational-valued
tables (`PxTable`), `NaN` cells become `Option.none`, and the pandas
operations used by the sources (`dropna`, `pct_change(days).iloc[-1]`,
`Series.get(key, 0)`, `sort_values(..., ascending=False)`) are translated
into executable Lean functions.  Machine floats are modelled by `ℚ`;
a pandas `NaN` arising from an out-of-range `pct_change` window is
modelled by `none`, and `Option`-valued arithmetic propagates `none`
exactly as `NaN` propagates through float arithmetic.
-/

namespace InvestmentDashboard

/-- `NaN`-propagating addition on optional rationals. -/
def oadd : Option ℚ → Option ℚ → Option ℚ
  | some a, some b => some (a + b)
  | _, _ => none

/-- `NaN`-propagating subtraction on optional rationals. -/
def osub : Option ℚ → Option ℚ → Option ℚ
  | some a, some b => some (a - b)
  | _, _ => none

/-- `NaN`-propagating multiplication by a constant. -/
def oscale (c : ℚ) : Option ℚ → Option ℚ
  | some a => some (c * a)
  | none => none

/-- `NaN`-propagating division (the divisor being `0` also yields `none`,
standing for the float infinity a zero close would produce — prices are
positive in every scenario considered here). -/
def odiv : Option ℚ → Option ℚ → Option ℚ
  | some a, some b => if b = 0 then none else some (a / b)
  | _, _ => none

/-- A downloaded close-price table: one column label per ticker and one
row per trading day; a missing quote (pandas `NaN`) is `none`.
Mirrors the result of `yf.download(...)["Close"]` in the sources. -/
structure PxTable where
  cols : List String
  rows : List (List (Option ℚ))
deriving DecidableEq

/-- `px.dropna()` as used in `src/engine.py`: keep only rows where every
column has a value. -/
def dropna (t : PxTable) : PxTable :=
  ⟨t.cols, t.rows.filter (fun r => r.all (fun x => x.isSome))⟩

/-- `closes.dropna(how="all")` as used by `batch_daily_prices` in
`src/dashboard.py`: keep rows where at least one column has a value. -/
def dropnaAll (t : PxTable) : PxTable :=
  ⟨t.cols, t.rows.filter (fun r => r.any (fun x => x.isSome))⟩

/-- Index of a column label. -/
def colIdx (t : PxTable) (c : String) : Nat := t.cols.indexOf c

/-- The column of a (dropna-cleaned) table as a rational series; the
defaults are never consulted on well-formed cleaned tables. -/
def colSeries (t : PxTable) (c : String) : List ℚ :=
  t.rows.map (fun r => (r.getD (colIdx t c) none).getD 0)

/-- `s.pct_change(days).iloc[-1]`: the percentage change between the last
observation and the one `days` positions earlier; `none` when the series
is too short (pandas `NaN`) or the earlier close is `0`. -/
def pctLast (s : List ℚ) (days : Nat) : Option ℚ :=
  if days < s.length then
    let prev := s.getD (s.length - 1 - days) 0
    if prev = 0 then none else some (s.getD (s.length - 1) 0 / prev - 1)
  else none

/-- `px.pct_change(days).iloc[-1].get(c, 0)` from `theme_radar`: the last
`days`-period percentage change of column `c`, with the pandas `get`
default `0` when the column is absent. -/
def getRet (t : PxTable) (days : Nat) (c : String) : Option ℚ :=
  if t.cols.contains c then pctLast (colSeries t c) days else some 0

/-- One output row of the theme radar: columns
`["Tema","Ticker","MomentumScore","RS_1M_vs_SPY","RS_3M_vs_SPY"]`. -/
structure ThemeRow where
  tema : String
  ticker : String
  score : Option ℚ
  rs_1m : Option ℚ
  rs_3m : Option ℚ
deriving DecidableEq

/-- Sort key: a `NaN` score sorts after every number in the descending
sort (pandas `sort_values` default `na_position="last"`). -/
def themeKey (r : ThemeRow) : WithBot ℚ :=
  match r.score with
  | none => ⊥
  | some q => (q : WithBot ℚ)

/-- `sort_values("MomentumScore", ascending=False)` ordering relation:
`a` may precede `b` iff `b`'s key is at most `a`'s. -/
def scoreDesc (a b : ThemeRow) : Prop := themeKey b ≤ themeKey a

instance : DecidableRel scoreDesc :=
  fun a b => inferInstanceAs (Decidable (themeKey b ≤ themeKey a))

instance : IsTotal ThemeRow scoreDesc :=
  ⟨fun a b => le_total (themeKey b) (themeKey a)⟩

instance : IsTrans ThemeRow scoreDesc :=
  ⟨fun _ _ _ hab hbc => le_trans hbc hab⟩

/-- Loop body of `theme_radar` in `src/engine.py` lines 95–100:
`rs_1m = ret(21).get(t,0) - spy_1m`, `rs_3m = ret(63).get(t,0) - spy_3m`,
`score = 60*rs_3m + 40*rs_1m`. -/
def mkThemeRow (px : PxTable) (spy1m spy3m : Option ℚ) (nm tk : String) : ThemeRow :=
  let rs1m := osub (getRet px 21 tk) spy1m
  let rs3m := osub (getRet px 63 tk) spy3m
  ⟨nm, tk, oadd (oscale 60 rs3m) (oscale 40 rs1m), rs1m, rs3m⟩

/-- The fixed theme → ETF proxy table of `src/engine.py`. -/
def THEME_ETFS : List (String × String) :=
  [("AI & Software", "QQQ"),
   ("Semiconductors", "SOXX"),
   ("Elektrificering & batterier", "LIT"),
   ("Grøn energi", "ICLN"),
   ("Solenergi", "TAN"),
   ("Defense/Aerospace", "ITA"),
   ("Robotics/Automation", "BOTZ"),
   ("Space", "ARKX"),
   ("Cybersecurity", "HACK")]

/-- `theme_radar` from `src/engine.py`, parametrised over the theme list
and the downloaded table (the `yf.download` result is the external price
provider's output): `px = px.dropna()`; abort to an empty frame when the
baseline column is missing or fewer than 60 cleaned rows remain; skip a
theme whose ticker is not a column; build the row from the 21- and 63-day
relative strengths; sort descending by score. -/
def theme_radar_over (themes : List (String × String)) (raw : PxTable) : List ThemeRow :=
  let px := dropna raw
  if px.cols.contains "SPY" = true ∧ 60 ≤ px.rows.length then
    let spy1m := getRet px 21 "SPY"
    let spy3m := getRet px 63 "SPY"
    List.insertionSort scoreDesc
      ((themes.filter (fun p => px.cols.contains p.2)).map
        (fun p => mkThemeRow px spy1m spy3m p.1 p.2))
  else []

/-- `theme_radar()` with the repository's fixed `THEME_ETFS`. -/
def theme_radar (raw : PxTable) : List ThemeRow :=
  theme_radar_over THEME_ETFS raw

/-- A concrete downloaded table: columns `SPY` and `QQQ` only (the other
theme tickers failed to download), 100 complete rows, `SPY` constant at 1,
`QQQ` constant at 1 until a final close of 2. -/
def cexPx : PxTable :=
  ⟨["SPY", "QQQ"], List.replicate 99 [some 1, some 1] ++ [[some 1, some 2]]⟩

/-- A concrete table with both columns constant at 1 over 100 rows: every
windowed return is 0. -/
def cexPxA : PxTable :=
  ⟨["SPY", "QQQ"], List.replicate 100 [some 1, some 1]⟩

/-- Like `cexPxA` but `QQQ`'s close 5 positions before the end is 2
instead of 1: the 5-day-window return differs from `cexPxA` while the 21-
and 63-day-window returns agree. -/
def cexPxB : PxTable :=
  ⟨["SPY", "QQQ"],
    List.replicate 94 [some 1, some 1] ++ [[some 1, some 2]] ++
      List.replicate 5 [some 1, some 1]⟩

/-- The empty downloaded table (a total provider failure). -/
def emptyPx : PxTable := ⟨[], []⟩

/-- Trailing window of the last `w` observations. -/
def lastWindow (s : List ℚ) (w : Nat) : List ℚ := s.drop (s.length - w)

/-- Arithmetic mean of the trailing `w` closes; no value before `w`
observations exist (spec §4.1 `movingAverage`). -/
def movingAverage (s : List ℚ) (w : Nat) : Option ℚ :=
  if w = 0 ∨ s.length < w then none else some ((lastWindow s w).sum / (w : ℚ))

/-- The spec's `trendOk` for a synthetic theme series: the series is above
its own 200-period moving average (false when that average is undefined). -/
def themeTrendOk (s : List ℚ) : Bool :=
  match movingAverage s 200 with
  | some m => decide (m < s.getD (s.length - 1) 0)
  | none => false

/-- The theme score exactly as claim C1 states it, written from the spec's
words (§4.4) to compare against the repository's `theme_radar` score:
`40·rs_3m + 35·rs_1m + 15·rs_1w + 10·(1 if trendOk else 0)`, with a
missing relative-strength term treated as 0. -/
def specThemeScore (raw : PxTable) (tk : String) : ℚ :=
  let px := dropna raw
  let rs := fun (d : Nat) => (osub (getRet px d tk) (getRet px d "SPY")).getD 0
  40 * rs 63 + 35 * rs 21 + 15 * rs 5 + (if themeTrendOk (colSeries px tk) then 10 else 0)

/-! ## The screening engine

`screen_universe` is imported by both dashboard variants but its module is
absent from the sources; the definitions below are therefore modelled
from the spec (§4.1–§4.3). -/

/-- Modelled from the spec: §4.3 ticker normalization — uppercase and
trim (the engine's `screen_universe` module is missing from the sources;
only its callers are present). -/
def normTicker (s : String) : String := s.trim.toUpper

/-- Modelled from the spec: §4.3 — uppercase/trim every ticker and drop
blank tickers, before deduplication. -/
def preNormalize (u : List (String × String)) : List (String × String) :=
  (u.map (fun p => (normTicker p.1, p.2))).filter (fun p => p.1 != "")

/-- Seen-set deduplication loop keyed by `key`, keeping the first
occurrence of each key — the loop of `src/universe_stoxx.py` lines 67–72,
and the spec's §4.3 "deduplicate by ticker (first occurrence wins)". -/
def dedupBy {α β : Type} [DecidableEq β] (key : α → β) (seen : List β) : List α → List α
  | [] => []
  | a :: rest =>
    if key a ∈ seen then dedupBy key seen rest
    else a :: dedupBy key (key a :: seen) rest

/-- Modelled from the spec: §4.3 universe normalization — uppercase/trim
tickers, drop blanks, deduplicate by ticker with first occurrence
winning. -/
def normalizeUniverse (u : List (String × String)) : List (String × String) :=
  dedupBy Prod.fst [] (preNormalize u)

/-- Day-over-day price changes (`delta`). -/
def deltasOf (s : List ℚ) : List ℚ := (s.zip s.tail).map (fun p => p.2 - p.1)

/-- Modelled from the spec: §4.1 — `gain = max(delta, 0)` per day. -/
def gainsOf (s : List ℚ) : List ℚ := (deltasOf s).map (fun d => max d 0)

/-- Modelled from the spec: §4.1 — `loss = max(-delta, 0)` per day. -/
def lossesOf (s : List ℚ) : List ℚ := (deltasOf s).map (fun d => max (-d) 0)

/-- Modelled from the spec: §4.1 RSI via simple rolling means of gains and
losses, `RSI = 100 - 100/(1+RS)` with `RS = meanGain/meanLoss`, and §9's
explicit division-by-zero rule: clamp to 100 when the mean loss is zero
and the mean gain nonzero, 50 by convention when both are zero. -/
def RSI (s : List ℚ) (period : Nat) : Option ℚ :=
  match movingAverage (gainsOf s) period, movingAverage (lossesOf s) period with
  | some g, some l =>
    if l = 0 then (if g = 0 then some 50 else some 100)
    else some (100 - 100 / (1 + g / l))
  | _, _ => none

/-- Modelled from the spec: §3 indicator snapshot fields. -/
structure IndicatorSnapshot where
  maShort : Option ℚ
  maLong : Option ℚ
  rsiNow : Option ℚ
  rsiPrior : Option ℚ
  rollingVolPct : ℚ
  drawdownFromPeak : ℚ
  lastClose : ℚ
deriving DecidableEq

/-- Modelled from the spec: §4.1 — the indicator snapshot of a cleaned
series, refused below 220 observations.  The 20-period return volatility
involves a square root, which has no exact rational value, so the
screener is parametrised by an arbitrary volatility functional `vol`
(spec §9 asks for such tunables to be explicit configuration); every
property proved below holds for every `vol`, in particular for the
spec's standard deviation.  The moving-average windows `shortW`/`longW`
are likewise configuration (the spec fixes no numeric values for them). -/
def computeSnapshot (vol : List ℚ → ℚ) (shortW longW : Nat) (s : List ℚ) :
    Option IndicatorSnapshot :=
  if s.length < 220 then none
  else some
    ⟨movingAverage s shortW,
      movingAverage s longW,
      RSI s 14,
      RSI (s.take (s.length - 6)) 14,
      vol s,
      s.getD (s.length - 1) 0 / ((lastWindow s 63).max?.getD 1) - 1,
      s.getD (s.length - 1) 0⟩

/-- Risk triage per spec §4.2. -/
inductive RiskFlag
  | OK
  | ELEVATED
  | HIGH
deriving DecidableEq

/-- Timing triage per spec §4.2. -/
inductive TimingFlag
  | HOLD_ADD
  | TAKE_PROFIT
  | EXIT_RISK
deriving DecidableEq

/-- Modelled from the spec: §3 Signal row (the `reasons` strings are
explanatory metadata never used in ranking and are not modelled). -/
structure SignalRow where
  ticker : String
  displayName : String
  score : ℚ
  riskFlag : RiskFlag
  buyFlag : Bool
  timingFlag : TimingFlag
deriving DecidableEq

/-- Modelled from the spec: §4.2 SignalClassifier — trend test, risk
order (trend-break/drawdown dominates volatility), buy band
`35 < rsi < 50` and rising, timing with take-profit checked before
trend, and the additive score. -/
def classify (snap : IndicatorSnapshot) (tk nm : String) : SignalRow :=
  let trendUp : Bool :=
    match snap.maShort, snap.maLong with
    | some a, some b => decide (b < a)
    | _, _ => false
  let risk : RiskFlag :=
    if trendUp = false ∨ snap.drawdownFromPeak < -(15 / 100 : ℚ) then RiskFlag.HIGH
    else if 5 < snap.rollingVolPct then RiskFlag.ELEVATED
    else RiskFlag.OK
  let buy : Bool :=
    trendUp &&
      (match snap.rsiNow, snap.rsiPrior with
       | some r, some rp => decide (35 < r ∧ r < 50 ∧ rp < r)
       | _, _ => false)
  let overbought : Bool :=
    match snap.rsiNow with
    | some r => decide (70 < r)
    | none => false
  let timing : TimingFlag :=
    if overbought = true then TimingFlag.TAKE_PROFIT
    else if trendUp = false then TimingFlag.EXIT_RISK
    else TimingFlag.HOLD_ADD
  let score : ℚ :=
    (if trendUp = true then 50 else 15) +
      (match snap.rsiNow with
       | some r => max 0 (30 - |r - 55|)
       | none => 0) +
      max 0 (20 - snap.rollingVolPct)
  ⟨tk, nm, score, risk, buy, timing⟩

/-- Modelled from the spec: §4.3 ranking key — `buyFlag` descending, then
score descending. -/
def rankRel (a b : SignalRow) : Prop :=
  b.buyFlag < a.buyFlag ∨ (a.buyFlag = b.buyFlag ∧ b.score ≤ a.score)

instance : DecidableRel rankRel :=
  fun a b =>
    inferInstanceAs (Decidable (b.buyFlag < a.buyFlag ∨ (a.buyFlag = b.buyFlag ∧ b.score ≤ a.score)))

instance : IsTotal SignalRow rankRel :=
  ⟨fun a b => by
    rcases lt_trichotomy a.buyFlag b.buyFlag with h | h | h
    · exact Or.inr (Or.inl h)
    · rcases le_total b.score a.score with hs | hs
      · exact Or.inl (Or.inr ⟨h, hs⟩)
      · exact Or.inr (Or.inr ⟨h.symm, hs⟩)
    · exact Or.inl (Or.inl h)⟩

instance : IsTrans SignalRow rankRel :=
  ⟨fun a b c hab hbc => by
    rcases hab with h1 | ⟨h1, s1⟩ <;> rcases hbc with h2 | ⟨h2, s2⟩
    · exact Or.inl (lt_trans h2 h1)
    · exact Or.inl (by rw [← h2]; exact h1)
    · exact Or.inl (by rw [h1]; exact h2)
    · exact Or.inr ⟨h1.trans h2, s2.trans s1⟩⟩

/-- Modelled from the spec: §4.3 `screen` — normalize the universe, look
each surviving ticker up in the fetched price table (a ticker absent from
the table or with insufficient history is silently skipped), classify,
sort by `(buyFlag desc, score desc)` with a stable sort, truncate to
`topN`.  The fetched table is a parameter, standing for the
PriceSeriesProvider's aligned close table. -/
def screen (vol : List ℚ → ℚ) (shortW longW : Nat) (px : List (String × List ℚ))
    (u : List (String × String)) (topN : Nat) : List SignalRow :=
  (List.insertionSort rankRel
      ((normalizeUniverse u).filterMap (fun p =>
        (List.lookup p.1 px).bind (fun s =>
          (computeSnapshot vol shortW longW s).map (fun snap => classify snap p.1 p.2))))).take
    topN

/-! ## Daily price changes (`batch_daily_prices` in `src/dashboard.py`) -/

/-- One output row of `batch_daily_prices`: columns
`["ticker","last","prev_close","chg","chg_pct"]` (`NaN` as `none`). -/
structure DailyRow where
  ticker : String
  last : Option ℚ
  prev_close : Option ℚ
  chg : Option ℚ
  chg_pct : Option ℚ
deriving DecidableEq

/-- Loop body of `batch_daily_prices` (`src/dashboard.py` lines 79–87):
`chg = last - prev` and `chg_pct = (chg / prev) if prev != 0 else 0.0`;
a `NaN` previous close compares unequal to 0 in Python, so it takes the
division branch and propagates `NaN`. -/
def mkDailyRow (t : String) (lastv prevv : Option ℚ) : DailyRow :=
  ⟨t, lastv, prevv, osub lastv prevv,
    if prevv = some 0 then some 0 else odiv (osub lastv prevv) prevv⟩

/-- `batch_daily_prices` from `src/dashboard.py` lines 46–89,
parametrised by the downloaded close table: filter out blank and `CASH`
tickers (empty filtered list short-circuits to an empty result), return
an empty result when the extracted close table is empty, drop all-`NaN`
rows, require at least two remaining rows, then build one row per column
from the last two rows. -/
def batch_daily_prices (tickers : List String) (closes : PxTable) : List DailyRow :=
  let ts := tickers.filter (fun t => !(t == "") && !(t == "CASH"))
  if ts.isEmpty then []
  else if closes.rows.isEmpty then []
  else
    let cl := dropnaAll closes
    if cl.rows.length < 2 then []
    else
      let lastR := cl.rows.getD (cl.rows.length - 1) []
      let prevR := cl.rows.getD (cl.rows.length - 2) []
      cl.cols.enum.map (fun pr => mkDailyRow pr.2 (lastR.getD pr.1 none) (prevR.getD pr.1 none))

/-! ## STOXX selection-list tickers (`src/universe_stoxx.py`)

Python strings are embedded as character lists so that `strip`,
`endswith` and slicing become list operations. -/

/-- Python's `str.strip()`: drop whitespace from both ends. -/
def pyStrip (s : List Char) : List Char :=
  ((s.dropWhile Char.isWhitespace).reverse.dropWhile Char.isWhitespace).reverse

/-- `_ric_to_yahoo` from `src/universe_stoxx.py` lines 35–46: strip the
RIC; a `.S` (Swiss SIX) suffix is rewritten to `.SW` (drop the last two
characters, append `.SW`); otherwise a RIC without any `.` is dropped
(`None`); anything else passes through unchanged. -/
def ric_to_yahoo (ric0 : List Char) : Option (List Char) :=
  let ric := pyStrip ric0
  if ['.', 'S'].isSuffixOf ric then some (ric.dropLast.dropLast ++ ['.', 'S', 'W'])
  else if '.' ∈ ric then some ric
  else none

/-- `get_stoxx600_yahoo_tickers` from `src/universe_stoxx.py` lines
48–74, parametrised by the RIC strings extracted from the downloaded PDF
(the regex scan over page text is I/O): map `_ric_to_yahoo` over them,
dropping `None`s, then deduplicate keeping first occurrences. -/
def get_stoxx600_yahoo_tickers (rics : List (List Char)) : List (List Char) :=
  dedupBy id [] (rics.filterMap ric_to_yahoo)

/-! ## Concrete inputs for witnesses -/

/-- A constant series: all deltas are 0, so mean gain and mean loss are
both 0. -/
def constSeries : List ℚ := List.replicate 20 1

/-- A strictly rising series: every loss is 0 but the mean gain is
positive. -/
def risingSeries : List ℚ := (List.range 20).map (fun n => (n : ℚ))

/-- A one-ticker price table with 220 observations. -/
def pxScreen : List (String × List ℚ) := [("AAA", List.replicate 220 1)]

/-- A universe needing normalization: padding, lowercase, a blank and a
duplicate. -/
def uRaw : List (String × String) :=
  [(" aaa ", "First"), ("AAA", "Dup"), ("", "Blank"), ("bbb", "Second")]

/-- A close table whose second-to-last row holds a zero close. -/
def cexDaily : PxTable := ⟨["AAA"], [[some 0], [some 5]]⟩

/-- A concrete RIC sample: a Swiss RIC, one needing a strip, one without
an exchange suffix, and a duplicate. -/
def ricsSample : List (List Char) :=
  [['N', 'E', 'S', 'N', '.', 'S'], [' ', 'S', 'A', 'P', '.', 'D', 'E'],
    ['A', 'B', 'C'], ['S', 'A', 'P', '.', 'D', 'E']]

/-! ## Helper lemmas about the theme radar -/

/-- Characterisation of membership in the radar output: a row appears iff
the global guard passed and the row is the one built for some theme whose
ticker survived the download. -/
theorem mem_theme_radar_over_iff {themes : List (String × String)} {raw : PxTable}
    {r : ThemeRow} :
    r ∈ theme_radar_over themes raw ↔
      (dropna raw).cols.contains "SPY" = true ∧ 60 ≤ (dropna raw).rows.length ∧
        ∃ p, p ∈ themes ∧ (dropna raw).cols.contains p.2 = true ∧
          r = mkThemeRow (dropna raw) (getRet (dropna raw) 21 "SPY")
                (getRet (dropna raw) 63 "SPY") p.1 p.2 := by
  by_cases hg : (dropna raw).cols.contains "SPY" = true ∧ 60 ≤ (dropna raw).rows.length
  · simp only [theme_radar_over, if_pos hg]
    rw [(List.perm_insertionSort scoreDesc _).mem_iff]
    simp only [List.mem_map, List.mem_filter]
    constructor
    · rintro ⟨p, ⟨hp, hc⟩, hr⟩
      exact ⟨hg.1, hg.2, p, hp, hc, hr.symm⟩
    · rintro ⟨_, _, p, hp, hc, hr⟩
      exact ⟨p, ⟨hp, hc⟩, hr.symm⟩
  · simp only [theme_radar_over, if_neg hg]
    constructor
    · intro h
      exact absurd h (List.not_mem_nil r)
    · rintro ⟨h1, h2, _⟩
      exact absurd ⟨h1, h2⟩ hg

/-- The radar output is sorted by the descending-score relation. -/
theorem theme_radar_sorted (raw : PxTable) : (theme_radar raw).Sorted scoreDesc := by
  simp only [theme_radar, theme_radar_over]
  split
  · exact List.sorted_insertionSort scoreDesc _
  · exact List.sorted_nil

/-- In `THEME_ETFS`, a theme name determines its proxy ticker. -/
theorem THEME_ETFS_name_det :
    ∀ p ∈ THEME_ETFS, ∀ q ∈ THEME_ETFS, p.1 = q.1 → p.2 = q.2 := by decide

/-! ## Claim C1 — theme score formula -/

/-- Claim C1 (counterexample): on a concrete table the radar ranks `QQQ`
with score `60·rs_3m + 40·rs_1m = 100`, while the spec's weighted sum
`40·rs_3m + 35·rs_1m + 15·rs_1w + 10·trendOk` evaluates to `90`;
the claimed formula does not match the program's score. -/
theorem theme_score_formula_counterexample :
    (∃ r ∈ theme_radar cexPx, r.ticker = "QQQ" ∧ r.score = some 100) ∧
      specThemeScore cexPx "QQQ" = 90 ∧ some (100 : ℚ) ≠ some (90 : ℚ) := by
  with_unfolding_all decide

/-- Claim C1 (amended): every row of the theme-radar output carries the
score `60·rs_3m + 40·rs_1m`, where `rs_d` is the row ticker's `d`-day
return minus the baseline's `d`-day return on the cleaned table; a
missing term propagates as missing (`none`) rather than being replaced
by 0, and no 1-week or trend term enters the score. -/
theorem theme_score_formula_amended (raw : PxTable) (r : ThemeRow)
    (hr : r ∈ theme_radar raw) :
    r.score =
      oadd (oscale 60 (osub (getRet (dropna raw) 63 r.ticker) (getRet (dropna raw) 63 "SPY")))
        (oscale 40 (osub (getRet (dropna raw) 21 r.ticker) (getRet (dropna raw) 21 "SPY"))) := by
  obtain ⟨-, -, p, -, -, hrow⟩ := mem_theme_radar_over_iff.mp hr
  subst hrow
  rfl

/-- Witness for C1's amended theorem at a concrete table and row. -/
theorem theme_score_formula_witness :
    (⟨"AI & Software", "QQQ", some 100, some 1, some 1⟩ : ThemeRow).score =
      oadd (oscale 60 (osub (getRet (dropna cexPx) 63 "QQQ") (getRet (dropna cexPx) 63 "SPY")))
        (oscale 40 (osub (getRet (dropna cexPx) 21 "QQQ") (getRet (dropna cexPx) 21 "SPY"))) :=
  theme_score_formula_amended cexPx ⟨"AI & Software", "QQQ", some 100, some 1, some 1⟩
    (by with_unfolding_all decide)

/-! ## Claim C2 — alignment requirement -/

/-- Claim C2 (counterexample): on a concrete table whose cleaned
intersection has only 100 aligned rows — fewer than the claimed 260 —
the `QQQ` theme is not skipped: it still produces a ranking row. -/
theorem theme_alignment_counterexample :
    (dropna cexPxA).rows.length = 100 ∧ 100 < 260 ∧
      ∃ r ∈ theme_radar cexPxA, r.ticker = "QQQ" := by
  with_unfolding_all decide

/-- Claim C2 (amended): the only alignment requirement is global — the
radar returns no rows at all when the jointly cleaned table lacks the
baseline column or has fewer than 60 rows; there is no per-theme 260-point
requirement (a theme is skipped only when its ticker column is absent). -/
theorem theme_radar_guard_amended (raw : PxTable)
    (h : ¬((dropna raw).cols.contains "SPY" = true ∧ 60 ≤ (dropna raw).rows.length)) :
    theme_radar raw = [] := by
  simp only [theme_radar, theme_radar_over, if_neg h]

/-- Witness for C2's amended theorem: the empty download yields an empty
radar. -/
theorem theme_radar_guard_witness : theme_radar emptyPx = [] :=
  theme_radar_guard_amended emptyPx (by decide)

/-! ## Claim C3 — relative-strength windows -/

/-- Claim C3 (counterexample): two concrete tables that differ in the
1-week (5-day) relative strength of `QQQ` but agree elsewhere produce
identical radar output — so no 1-week-window relative strength is
computed, refuting "over all three" windows. -/
theorem theme_rs_windows_counterexample :
    theme_radar cexPxA = theme_radar cexPxB ∧
      osub (getRet (dropna cexPxA) 5 "QQQ") (getRet (dropna cexPxA) 5 "SPY") ≠
        osub (getRet (dropna cexPxB) 5 "QQQ") (getRet (dropna cexPxB) 5 "SPY") := by
  with_unfolding_all decide

/-- Claim C3 (amended): every radar row's relative strengths are the
theme return minus the baseline return over the 1-month (21-day) and
3-month (63-day) windows only; no 1-week (5-day) window is computed. -/
theorem theme_rs_windows_amended (raw : PxTable) (r : ThemeRow)
    (hr : r ∈ theme_radar raw) :
    r.rs_1m = osub (getRet (dropna raw) 21 r.ticker) (getRet (dropna raw) 21 "SPY") ∧
      r.rs_3m = osub (getRet (dropna raw) 63 r.ticker) (getRet (dropna raw) 63 "SPY") := by
  obtain ⟨-, -, p, -, -, hrow⟩ := mem_theme_radar_over_iff.mp hr
  subst hrow
  exact ⟨rfl, rfl⟩

/-- Witness for C3's amended theorem at a concrete table and row. -/
theorem theme_rs_windows_witness :
    (⟨"AI & Software", "QQQ", some 100, some 1, some 1⟩ : ThemeRow).rs_1m =
        osub (getRet (dropna cexPx) 21 "QQQ") (getRet (dropna cexPx) 21 "SPY") ∧
      (⟨"AI & Software", "QQQ", some 100, some 1, some 1⟩ : ThemeRow).rs_3m =
        osub (getRet (dropna cexPx) 63 "QQQ") (getRet (dropna cexPx) 63 "SPY") :=
  theme_rs_windows_amended cexPx ⟨"AI & Software", "QQQ", some 100, some 1, some 1⟩
    (by with_unfolding_all decide)

/-! ## Claim C7 — missing proxy tickers are skipped silently -/

/-- Claim C7: a theme whose proxy ticker is absent from the fetched table
contributes no row (and the computation is total, so nothing is raised),
while every theme whose ticker is present is still ranked whenever the
radar runs at all. -/
theorem theme_missing_ticker_skipped (raw : PxTable) :
    (∀ nm tk, (nm, tk) ∈ THEME_ETFS → (dropna raw).cols.contains tk = false →
      ∀ r ∈ theme_radar raw, r.tema ≠ nm) ∧
    (∀ nm tk, (nm, tk) ∈ THEME_ETFS → (dropna raw).cols.contains tk = true →
      (dropna raw).cols.contains "SPY" = true → 60 ≤ (dropna raw).rows.length →
      ∃ r ∈ theme_radar raw, r.tema = nm ∧ r.ticker = tk) := by
  constructor
  · intro nm tk hmem hmiss r hr heq
    obtain ⟨-, -, p, hp, hc, hrow⟩ := mem_theme_radar_over_iff.mp hr
    have htema : r.tema = p.1 := by rw [hrow]; rfl
    have h2 : p.2 = tk := THEME_ETFS_name_det p hp (nm, tk) hmem (by rw [← htema, heq])
    rw [h2, hmiss] at hc
    exact Bool.false_ne_true hc
  · intro nm tk hmem hc hspy hlen
    refine ⟨mkThemeRow (dropna raw) (getRet (dropna raw) 21 "SPY")
      (getRet (dropna raw) 63 "SPY") nm tk, ?_, rfl, rfl⟩
    exact mem_theme_radar_over_iff.mpr ⟨hspy, hlen, (nm, tk), hmem, hc, rfl⟩

/-- Witness for C7 at a concrete table: `SOXX` is absent so
"Semiconductors" is not ranked, while `QQQ` is present so
"AI & Software" is. -/
theorem theme_missing_ticker_skipped_witness :
    (⟨"AI & Software", "QQQ", some 100, some 1, some 1⟩ : ThemeRow).tema ≠ "Semiconductors" ∧
      ∃ r ∈ theme_radar cexPx, r.tema = "AI & Software" ∧ r.ticker = "QQQ" :=
  ⟨(theme_missing_ticker_skipped cexPx).1 "Semiconductors" "SOXX" (by decide)
      (by with_unfolding_all decide)
      ⟨"AI & Software", "QQQ", some 100, some 1, some 1⟩ (by with_unfolding_all decide),
    (theme_missing_ticker_skipped cexPx).2 "AI & Software" "QQQ" (by decide)
      (by with_unfolding_all decide) (by with_unfolding_all decide)
      (by with_unfolding_all decide)⟩

/-! ## Claim C8 — descending score order -/

/-- Claim C8: in the theme-radar output, every adjacent pair of rows with
numeric scores has the earlier score greater than or equal to the later
one (the output is sorted descending by score, missing scores last). -/
theorem theme_radar_sorted_desc (raw : PxTable) :
    (theme_radar raw).Chain'
      (fun a b => ∀ x y, a.score = some x → b.score = some y → y ≤ x) := by
  refine ((theme_radar_sorted raw).imp ?_).chain'
  intro a b hab x y hx hy
  have ha : themeKey a = (x : WithBot ℚ) := by simp [themeKey, hx]
  have hb : themeKey b = (y : WithBot ℚ) := by simp [themeKey, hy]
  have h : (y : WithBot ℚ) ≤ (x : WithBot ℚ) := by
    rw [← ha, ← hb]; exact hab
  exact_mod_cast h

/-- Witness for C8 at a concrete table. -/
theorem theme_radar_sorted_desc_witness :
    (theme_radar cexPx).Chain'
      (fun a b => ∀ x y, a.score = some x → b.score = some y → y ≤ x) :=
  theme_radar_sorted_desc cexPx

/-! ## Helper lemmas about deduplication and filtering -/

/-- Every element kept by the seen-set loop was in the input list. -/
theorem mem_of_mem_dedupBy {α β : Type} [DecidableEq β] (key : α → β) :
    ∀ (l : List α) (seen : List β) (a : α), a ∈ dedupBy key seen l → a ∈ l := by
  intro l
  induction l with
  | nil => intro seen a h; simp [dedupBy] at h
  | cons b rest ih =>
    intro seen a h
    simp only [dedupBy] at h
    by_cases hb : key b ∈ seen
    · rw [if_pos hb] at h
      exact List.mem_cons_of_mem b (ih seen a h)
    · rw [if_neg hb] at h
      rcases List.mem_cons.mp h with h1 | h1
      · rw [h1]; exact List.mem_cons_self b rest
      · exact List.mem_cons_of_mem b (ih _ a h1)

/-- Every survivor of the seen-set loop has a fresh key and is the first
element of the input carrying its key. -/
theorem dedupBy_find {α β : Type} [DecidableEq β] (key : α → β) :
    ∀ (l : List α) (seen : List β) (a : α), a ∈ dedupBy key seen l →
      key a ∉ seen ∧ l.find? (fun q => decide (key q = key a)) = some a := by
  intro l
  induction l with
  | nil => intro seen a h; simp [dedupBy] at h
  | cons b rest ih =>
    intro seen a h
    simp only [dedupBy] at h
    by_cases hb : key b ∈ seen
    · rw [if_pos hb] at h
      obtain ⟨hns, hfind⟩ := ih seen a h
      have hne : key b ≠ key a := fun he => hns (he ▸ hb)
      exact ⟨hns, by simp [List.find?, decide_eq_false hne, hfind]⟩
    · rw [if_neg hb] at h
      rcases List.mem_cons.mp h with h1 | h1
      · subst h1
        exact ⟨hb, by simp [List.find?]⟩
      · obtain ⟨hns, hfind⟩ := ih _ a h1
        have hna : key a ∉ seen := fun hx => hns (List.mem_cons_of_mem _ hx)
        have hne : key b ≠ key a := fun he => hns (he ▸ List.mem_cons_self _ _)
        exact ⟨hna, by simp [List.find?, decide_eq_false hne, hfind]⟩

/-- The keys of the seen-set loop's output are pairwise distinct. -/
theorem dedupBy_keys_nodup {α β : Type} [DecidableEq β] (key : α → β) :
    ∀ (l : List α) (seen : List β), ((dedupBy key seen l).map key).Nodup := by
  intro l
  induction l with
  | nil => intro seen; simp [dedupBy]
  | cons b rest ih =>
    intro seen
    simp only [dedupBy]
    by_cases hb : key b ∈ seen
    · rw [if_pos hb]; exact ih seen
    · rw [if_neg hb]
      simp only [List.map_cons, List.nodup_cons]
      refine ⟨?_, ih _⟩
      intro hmem
      obtain ⟨a, ha, hk⟩ := List.mem_map.mp hmem
      exact (dedupBy_find key rest (key b :: seen) a ha).1
        (by rw [hk]; exact List.mem_cons_self _ _)

/-- A `filterMap` keeps at most as many elements as satisfy any predicate
implied by the partial map succeeding. -/
theorem length_filterMap_le_countP {α β : Type} (f : α → Option β) (p : α → Bool)
    (h : ∀ x, (f x).isSome = true → p x = true) :
    ∀ l : List α, (l.filterMap f).length ≤ l.countP p := by
  intro l
  induction l with
  | nil => simp
  | cons a t ih =>
    rw [List.filterMap_cons, List.countP_cons]
    cases hfa : f a with
    | none => exact le_trans ih (Nat.le_add_right _ _)
    | some b =>
      have hpa : p a = true := h a (by rw [hfa]; rfl)
      simp only [hpa, if_true, List.length_cons]
      exact Nat.succ_le_succ ih

/-! ## Claim C4 — screen length bounds -/

/-- Claim C4 (spec-modelled): for every volatility functional,
moving-average configuration, fetched price table, universe and positive
`n`, the ranked output of `screen` has length at most `n`, and at most
the number of (normalized) universe tickers with 220 or more valid
observations in the fetched table. -/
theorem screen_topN_bound (vol : List ℚ → ℚ) (shortW longW : Nat)
    (px : List (String × List ℚ)) (u : List (String × String)) (n : Nat) (_hn : 0 < n) :
    (screen vol shortW longW px u n).length ≤ n ∧
      (screen vol shortW longW px u n).length ≤
        (normalizeUniverse u).countP (fun p =>
          match List.lookup p.1 px with
          | some s => decide (220 ≤ s.length)
          | none => false) := by
  constructor
  · simp only [screen]
    rw [List.length_take]
    exact min_le_left _ _
  · simp only [screen]
    refine le_trans (List.take_sublist _ _).length_le ?_
    rw [(List.perm_insertionSort rankRel _).length_eq]
    apply length_filterMap_le_countP
    intro p hp
    cases hl : List.lookup p.1 px with
    | none => rw [hl] at hp; simp at hp
    | some s =>
      rw [hl] at hp
      by_cases h220 : s.length < 220
      · exact absurd hp (by simp [computeSnapshot, h220])
      · exact decide_eq_true (Nat.not_lt.mp h220)

/-- Witness for C4 at a concrete configuration, table and universe. -/
theorem screen_topN_bound_witness :
    (screen (fun _ => 0) 50 200 pxScreen uRaw 1).length ≤ 1 ∧
      (screen (fun _ => 0) 50 200 pxScreen uRaw 1).length ≤
        (normalizeUniverse uRaw).countP (fun p =>
          match List.lookup p.1 pxScreen with
          | some s => decide (220 ≤ s.length)
          | none => false) :=
  screen_topN_bound (fun _ => 0) 50 200 pxScreen uRaw 1 (by decide)

/-! ## Claim C5 — RSI at zero mean loss -/

/-- Claim C5 (counterexample): on a constant series the rolling mean
loss over the period is 0, yet RSI is 50 — the spec's own both-zero
convention (§9) — not 100; the flat "saturates to 100" claim fails when
the mean gain is also 0. -/
theorem rsi_zero_loss_counterexample :
    movingAverage (lossesOf constSeries) 14 = some 0 ∧
      RSI constSeries 14 = some 50 ∧ some (50 : ℚ) ≠ some (100 : ℚ) := by
  with_unfolding_all decide

/-- Claim C5 (amended, spec-modelled): whenever the rolling mean loss
over the period is 0, RSI still returns a value (no failure): 100 when
the rolling mean gain is nonzero, and 50 by the spec's convention when
both means are zero. -/
theorem rsi_zero_loss_amended (s : List ℚ) (period : Nat)
    (h : movingAverage (lossesOf s) period = some 0) :
    ∃ g, movingAverage (gainsOf s) period = some g ∧
      RSI s period = some (if g = 0 then 50 else 100) := by
  cases hg : movingAverage (gainsOf s) period with
  | none =>
    exfalso
    have hlen : (gainsOf s).length = (lossesOf s).length := by simp [gainsOf, lossesOf]
    unfold movingAverage at h hg
    by_cases hc : period = 0 ∨ (lossesOf s).length < period
    · rw [if_pos hc] at h
      exact Option.noConfusion h
    · have hc2 : ¬(period = 0 ∨ (gainsOf s).length < period) := by rw [hlen]; exact hc
      rw [if_neg hc2] at hg
      exact Option.noConfusion hg
  | some g =>
    refine ⟨g, rfl, ?_⟩
    rcases eq_or_ne g 0 with h0 | h0
    · simp [RSI, hg, h, h0]
    · simp [RSI, hg, h, h0]

/-- Witness for C5's amended theorem: a strictly rising series has zero
mean loss and RSI 100. -/
theorem rsi_zero_loss_witness :
    ∃ g, movingAverage (gainsOf risingSeries) 14 = some g ∧
      RSI risingSeries 14 = some (if g = 0 then 50 else 100) :=
  rsi_zero_loss_amended risingSeries 14 (by with_unfolding_all decide)

/-! ## Claim C6 — universe normalization -/

/-- Claim C6 (spec-modelled): normalization maps every universe to one
whose tickers are the uppercased/trimmed input tickers, with no blanks,
no duplicate tickers, and — for each surviving ticker — the pair kept is
the first occurrence among the cleaned entries. -/
theorem normalize_universe_spec (u : List (String × String)) :
    (∀ p ∈ normalizeUniverse u, p.1 ≠ "" ∧ ∃ q ∈ u, p.1 = normTicker q.1) ∧
      ((normalizeUniverse u).map Prod.fst).Nodup ∧
      ∀ p ∈ normalizeUniverse u,
        (preNormalize u).find? (fun q => decide (q.1 = p.1)) = some p := by
  refine ⟨?_, dedupBy_keys_nodup Prod.fst _ [], ?_⟩
  · intro p hp
    have hpre : p ∈ preNormalize u := mem_of_mem_dedupBy Prod.fst _ [] p hp
    simp only [preNormalize, List.mem_filter, List.mem_map] at hpre
    obtain ⟨⟨q, hq, hpq⟩, hne⟩ := hpre
    constructor
    · intro h0
      rw [h0] at hne
      simp at hne
    · exact ⟨q, hq, by rw [← hpq]⟩
  · intro p hp
    exact (dedupBy_find Prod.fst _ [] p hp).2

/-- Witness for C6: a concrete universe with padding, case, a blank and
a duplicate normalizes as specified. -/
theorem normalize_universe_witness :
    normalizeUniverse uRaw = [("AAA", "First"), ("BBB", "Second")] ∧
      ((∀ p ∈ normalizeUniverse uRaw, p.1 ≠ "" ∧ ∃ q ∈ uRaw, p.1 = normTicker q.1) ∧
        ((normalizeUniverse uRaw).map Prod.fst).Nodup ∧
        ∀ p ∈ normalizeUniverse uRaw,
          (preNormalize uRaw).find? (fun q => decide (q.1 = p.1)) = some p) :=
  ⟨by with_unfolding_all decide, normalize_universe_spec uRaw⟩

/-! ## Claim C9 — daily price changes never divide by zero -/

/-- Claim C9: `batch_daily_prices` is a total function returning a
(possibly empty) row list, and every output row whose previous close is
0 reports a percentage change of 0 rather than dividing by it. -/
theorem batch_daily_prices_zero_prev (tickers : List String) (closes : PxTable) :
    ∀ r ∈ batch_daily_prices tickers closes, r.prev_close = some 0 → r.chg_pct = some 0 := by
  intro r hr h0
  simp only [batch_daily_prices] at hr
  split at hr
  · exact absurd hr (List.not_mem_nil r)
  · split at hr
    · exact absurd hr (List.not_mem_nil r)
    · split at hr
      · exact absurd hr (List.not_mem_nil r)
      · obtain ⟨pr, hmem, heq⟩ := List.mem_map.mp hr
        rw [← heq] at h0 ⊢
        simp only [mkDailyRow] at h0 ⊢
        rw [if_pos h0]

/-- Witness for C9 at a concrete table with a zero previous close. -/
theorem batch_daily_prices_zero_prev_witness :
    (⟨"AAA", some 5, some 0, some 5, some 0⟩ : DailyRow).chg_pct = some 0 :=
  batch_daily_prices_zero_prev ["AAA"] cexDaily ⟨"AAA", some 5, some 0, some 5, some 0⟩
    (by with_unfolding_all decide) (by decide)

/-! ## Claim C10 — STOXX ticker list invariants -/

/-- Claim C10: whatever RIC strings the PDF scan yields, the returned
ticker list has no duplicates and every entry contains a `.` exchange
suffix; a `.S` (Swiss) suffix is rewritten to `.SW` and a RIC without
any `.` is dropped. -/
theorem stoxx_tickers_spec (rics : List (List Char)) :
    (get_stoxx600_yahoo_tickers rics).Nodup ∧
      (∀ t ∈ get_stoxx600_yahoo_tickers rics, '.' ∈ t) ∧
      (∀ ric, ['.', 'S'].isSuffixOf (pyStrip ric) = true →
        ric_to_yahoo ric = some ((pyStrip ric).dropLast.dropLast ++ ['.', 'S', 'W'])) ∧
      (∀ ric, ['.', 'S'].isSuffixOf (pyStrip ric) = false → '.' ∉ pyStrip ric →
        ric_to_yahoo ric = none) := by
  refine ⟨?_, ?_, ?_, ?_⟩
  · have h := dedupBy_keys_nodup (id : List Char → List Char) (rics.filterMap ric_to_yahoo) []
    rw [List.map_id] at h
    exact h
  · intro t ht
    have hmem : t ∈ rics.filterMap ric_to_yahoo := mem_of_mem_dedupBy id _ [] t ht
    obtain ⟨ric, hric, hy⟩ := List.mem_filterMap.mp hmem
    simp only [ric_to_yahoo] at hy
    by_cases h1 : ['.', 'S'].isSuffixOf (pyStrip ric) = true
    · rw [if_pos h1] at hy
      have ht2 : (pyStrip ric).dropLast.dropLast ++ ['.', 'S', 'W'] = t := Option.some.inj hy
      rw [← ht2]
      exact List.mem_append_right _ (by simp)
    · rw [if_neg h1] at hy
      by_cases h2 : '.' ∈ pyStrip ric
      · rw [if_pos h2] at hy
        rw [← Option.some.inj hy]
        exact h2
      · rw [if_neg h2] at hy
        exact Option.noConfusion hy
  · intro ric h1
    simp only [ric_to_yahoo]
    rw [if_pos h1]
  · intro ric h1 h2
    simp only [ric_to_yahoo]
    rw [if_neg (by simp [h1]), if_neg h2]

/-- Witness for C10: the sample maps to `[NESN.SW, SAP.DE]` — rewritten,
stripped, suffix-free RIC dropped, duplicate removed — with no
duplicates. -/
theorem stoxx_tickers_witness :
    get_stoxx600_yahoo_tickers ricsSample =
        [['N', 'E', 'S', 'N', '.', 'S', 'W'], ['S', 'A', 'P', '.', 'D', 'E']] ∧
      (get_stoxx600_yahoo_tickers ricsSample).Nodup :=
  ⟨by decide, (stoxx_tickers_spec ricsSample).1⟩

end InvestmentDashboard
